import Mathlib

/-!
Verification of the sprite-sheet frame-geometry calculator, animation-curve
builder and playback state machine of `react-native-sprites`
(`src/Sprites.tsx`).

Conventions of the embedding:
* JS numbers that are used as integers (frame indices, rows, columns) become
  `ℤ`; JS numbers used as real quantities (frame sizes, offsets, progress,
  durations, fps) become `ℚ` (the arithmetic the source performs on them is
  exact: negation, multiplication, subtraction, division).
* The `Record<string, _>` objects become association lists
  `List (String × _)`; a JS record has pairwise distinct keys, which appears
  as a `Nodup` hypothesis where a statement needs it.
* Console diagnostics become explicit values: a `Bool` flag or an event list.
* The external `Animated` tween engine of React Native is not part of the
  repository; its behaviour (linear advance, completion, cancellation) is
  modelled from the spec where the doc comment says so.
-/

namespace Sprites

/-- The sheet geometry a sprite instance works with: the grid size, the
computed frame dimensions (`computedFrameWidth` / `computedFrameHeight` in
the source; their derivation from image dimensions is outside the core) and
the user offsets (`offsetX`, `offsetY`, both defaulting to 0). -/
structure SheetGeometry where
  columns : ℤ
  rows : ℤ
  frameWidth : ℚ
  frameHeight : ℚ
  offsetX : ℚ
  offsetY : ℚ
deriving Repr, DecidableEq

/-- A translation offset as returned by `getFrameCoords`. -/
structure FrameCoords where
  translateX : ℚ
  translateY : ℚ
deriving Repr, DecidableEq

/-- `getFrameCoords` (src/Sprites.tsx, lines 188-209): the translation needed
to display frame `frameIndex`.  The `Bool` component records whether the
out-of-bounds warning fired (the source emits it via `console.warn` under
`__DEV__`; we model a development build, where the diagnostic is on).

In the in-bounds branch `frameIndex ≥ 0`, so JS `%` (sign of the dividend)
agrees with `Int.emod` and `Math.floor(frameIndex / columns)` agrees with
`Int.fdiv` (floor division). -/
def getFrameCoords (g : SheetGeometry) (frameIndex : ℤ) : FrameCoords × Bool :=
  let totalFrames := g.columns * g.rows
  if frameIndex < 0 ∨ totalFrames ≤ frameIndex then
    (⟨0, 0⟩, true)
  else
    let column := frameIndex.emod g.columns
    let row := frameIndex.fdiv g.columns
    (⟨-(column : ℚ) * g.frameWidth - g.offsetX,
      -(row : ℚ) * g.frameHeight - g.offsetY⟩, false)

/-- `generateFrames` (src/Sprites.tsx, lines 212-227): the flattened frame
indices of an animation.  The JS loop pushes `row * totalColumns + i` for
`i = startFrame, …, endFrame`; it runs `endFrame - startFrame + 1` times when
that is positive and zero times otherwise. -/
def generateFrames (row startFrame endFrame totalColumns : ℤ) : List ℤ :=
  (List.range (endFrame + 1 - startFrame).toNat).map
    (fun (i : ℕ) => row * totalColumns + (startFrame + (i : ℤ)))

/-- One animation definition (`animations` prop entry): `row`, `startFrame`,
`endFrame`. -/
structure AnimDef where
  row : ℤ
  startFrame : ℤ
  endFrame : ℤ
deriving Repr, DecidableEq

/-- One animation's interpolation range (the value stored in `ranges[key]`,
src/Sprites.tsx, lines 263-266).  The source stores the same `inputRange`
array under both `translateX.input` and `translateY.input`; we keep it once
as `input`, with `outputX` / `outputY` the two output arrays. -/
structure InterpRange where
  input : List ℚ
  outputX : List ℚ
  outputY : List ℚ
deriving Repr, DecidableEq

/-- The body of the `frames.forEach` in `interpolationRanges`
(src/Sprites.tsx, lines 255-261): for the frame at ordinal position `index`
push `index, index + 1` onto the input range and the frame's coordinates
twice onto each output range.  Rendered functionally: each position
contributes exactly its own two entries, in order. -/
def buildRange (g : SheetGeometry) (frames : List ℤ) : InterpRange :=
  { input := (List.range frames.length).flatMap
      (fun (index : ℕ) => [(index : ℚ), (index : ℚ) + 1])
  , outputX := frames.flatMap
      (fun f => [((getFrameCoords g f).1).translateX, ((getFrameCoords g f).1).translateX])
  , outputY := frames.flatMap
      (fun f => [((getFrameCoords g f).1).translateY, ((getFrameCoords g f).1).translateY]) }

/-- The result of the `interpolationRanges` `useMemo`: the registered ranges,
plus the "requires at least 2 frames, but received n" warnings (animation
name with the frame count actually received). -/
structure CurveSet where
  ranges : List (String × InterpRange)
  warnings : List (String × ℕ)
deriving Repr, DecidableEq

/-- `interpolationRanges` (src/Sprites.tsx, lines 230-270): for each
animation in order, generate its frames; with fewer than 2 frames warn and
skip it, otherwise register its step-function range under its key. -/
def interpolationRanges (g : SheetGeometry) : List (String × AnimDef) → CurveSet
  | [] => { ranges := [], warnings := [] }
  | (key, anim) :: rest =>
    let frames := generateFrames anim.row anim.startFrame anim.endFrame g.columns
    let s := interpolationRanges g rest
    if frames.length < 2 then
      { ranges := s.ranges, warnings := (key, frames.length) :: s.warnings }
    else
      { ranges := (key, buildRange g frames) :: s.ranges, warnings := s.warnings }

/-- Default fps of `play` (src/Sprites.tsx, line 87). -/
def DEFAULT_FPS : ℚ := 24

/-- The options object of `play` (src/Sprites.tsx, lines 28-34), with the
defaults applied by the destructuring on lines 323-329.  The `onFinish`
callback itself is modelled by the `finished` event. -/
structure PlayOptions where
  type : String
  fps : ℚ := DEFAULT_FPS
  loop : Bool := false
  resetAfterFinish : Bool := false
deriving Repr, DecidableEq

/-- The configuration of an in-flight advance, as handed to
`Animated.timing` (src/Sprites.tsx, lines 350-355): target value
(`frames.length`), duration in milliseconds, and the loop /
reset-after-finish flags of the surrounding `play` call.  The easing is
always `Easing.linear`. -/
structure RunConfig where
  toValue : ℚ
  duration : ℚ
  loop : Bool
  resetAfterFinish : Bool
deriving Repr, DecidableEq

/-- The mutable playback session of one sprite instance: `animationType`
(the active animation's name), the value of `animatedValue` (the progress
scalar), and the in-flight advance if one is running. -/
structure PlaybackState where
  animationType : Option String
  progress : ℚ
  run : Option RunConfig
deriving Repr, DecidableEq

/-- Observable effects of the playback operations: a console error
(unknown / invalid animation in `play`), an `onFinish` invocation, or a
`stop` / `reset` callback invocation. -/
inductive PlayEvent where
  | errored
  | finished
  | callback
deriving Repr, DecidableEq

/-- `play` (src/Sprites.tsx, lines 322-369).  Unknown animation name or
fewer than 2 frames: console error, state untouched.  Otherwise set the
animation type, reset the animated value to 0 and start the advance with
`toValue = frames.length` and `duration = frames.length / fps * 1000`.
Starting the new advance replaces any in-flight one (the spec's
cancel-and-restart; the superseded run emits nothing). -/
def play (animations : List (String × AnimDef)) (columns : ℤ)
    (opts : PlayOptions) (st : PlaybackState) : PlaybackState × List PlayEvent :=
  match animations.lookup opts.type with
  | none => (st, [PlayEvent.errored])
  | some anim =>
    let frames := generateFrames anim.row anim.startFrame anim.endFrame columns
    if frames.length < 2 then (st, [PlayEvent.errored])
    else
      ({ animationType := some opts.type
       , progress := 0
       , run := some
           { toValue := (frames.length : ℚ)
           , duration := ((frames.length : ℚ) / opts.fps) * 1000
           , loop := opts.loop
           , resetAfterFinish := opts.resetAfterFinish } }, [])

/-- Modelled from the spec: the external `Animated` engine's linear advance
(the source's `Animated.timing` with `Easing.linear`, which is not
repository code).  At elapsed time `t` the value has moved linearly from 0
towards `toValue`, arriving exactly at `duration`. -/
def progressAt (r : RunConfig) (t : ℚ) : ℚ :=
  if t ≤ 0 then 0
  else if r.duration ≤ t then r.toValue
  else r.toValue * (t / r.duration)

/-- Modelled from the spec: what happens when an in-flight advance reaches
`toValue` naturally (the external engine invoking the source's completion
callback, src/Sprites.tsx, lines 357-366).  A looping run snaps back to 0
and repeats with no callback; a non-loop run halts, resets the value first
when `resetAfterFinish` is set, and invokes `onFinish` once.  With no
in-flight advance nothing happens. -/
def completeRun (st : PlaybackState) : PlaybackState × List PlayEvent :=
  match st.run with
  | none => (st, [])
  | some r =>
    if r.loop then ({ st with progress := 0 }, [])
    else
      ({ st with
          progress := (if r.resetAfterFinish then 0 else r.toValue),
          run := none },
       [PlayEvent.finished])

/-- `stop` (src/Sprites.tsx, lines 371-376): `animatedValue.stopAnimation(cb)`.
Modelled from the spec: cancellation of the external engine's advance leaves
the value where it is and invokes the callback once; the cancelled run's
`onFinish` is not invoked. -/
def stop (st : PlaybackState) : PlaybackState × List PlayEvent :=
  ({ st with run := none }, [PlayEvent.callback])

/-- `reset` (src/Sprites.tsx, lines 378-384): `animatedValue.stopAnimation(cb)`
followed by `animatedValue.setValue(0)`.  Same cancellation model as `stop`,
then the value is set to 0. -/
def reset (st : PlaybackState) : PlaybackState × List PlayEvent :=
  ({ st with run := none, progress := 0 }, [PlayEvent.callback])

end Sprites

namespace Sprites

/-- Looking a key up past a head entry with a different key skips the head. -/
lemma lookup_cons_ne {β : Type} (k key : String) (x : β) (rest : List (String × β))
    (h : ¬ key = k) : ((k, x) :: rest).lookup key = rest.lookup key := by
  have hk : (key == k) = false := by simp [h]
  simp [List.lookup_cons, hk]

/-- Looking up the head entry's own key returns its value. -/
lemma lookup_cons_self {β : Type} (k : String) (x : β) (rest : List (String × β)) :
    ((k, x) :: rest).lookup k = some x := by
  simp [List.lookup_cons]

/-- A list built from key-value pairs has no entry for a key that is not
among its keys. -/
lemma lookup_eq_none_of_not_mem_keys {β : Type} (l : List (String × β)) (key : String)
    (h : key ∉ l.map Prod.fst) : l.lookup key = none := by
  induction l with
  | nil => rfl
  | cons p t ih =>
    obtain ⟨k, b⟩ := p
    simp only [List.map_cons, List.mem_cons, not_or] at h
    rw [lookup_cons_ne k key b t h.1]
    exact ih h.2

/-- Unfolding of `interpolationRanges` at a cons cell. -/
lemma interpolationRanges_cons (g : SheetGeometry) (k : String) (b : AnimDef)
    (t : List (String × AnimDef)) :
    interpolationRanges g ((k, b) :: t) =
      (if (generateFrames b.row b.startFrame b.endFrame g.columns).length < 2 then
        { ranges := (interpolationRanges g t).ranges
        , warnings := (k, (generateFrames b.row b.startFrame b.endFrame g.columns).length) ::
            (interpolationRanges g t).warnings }
       else
        { ranges := (k, buildRange g (generateFrames b.row b.startFrame b.endFrame g.columns)) ::
            (interpolationRanges g t).ranges
        , warnings := (interpolationRanges g t).warnings }) := by
  rfl

/-- A key absent from the animation record is registered neither among the
ranges nor among the warnings. -/
lemma curveSet_lookup_none (g : SheetGeometry) (anims : List (String × AnimDef))
    (key : String) (h : key ∉ anims.map Prod.fst) :
    (interpolationRanges g anims).ranges.lookup key = none ∧
    (interpolationRanges g anims).warnings.lookup key = none := by
  induction anims with
  | nil => exact ⟨rfl, rfl⟩
  | cons p t ih =>
    obtain ⟨k, b⟩ := p
    simp only [List.map_cons, List.mem_cons, not_or] at h
    have iht := ih h.2
    rw [interpolationRanges_cons]
    by_cases hlen : (generateFrames b.row b.startFrame b.endFrame g.columns).length < 2
    · rw [if_pos hlen]
      exact ⟨iht.1, by rw [lookup_cons_ne k key _ _ h.1]; exact iht.2⟩
    · rw [if_neg hlen]
      exact ⟨by rw [lookup_cons_ne k key _ _ h.1]; exact iht.1, iht.2⟩

/-- For a record with distinct keys, what `interpolationRanges` registers for
a present key: the step range when the animation has at least 2 frames,
otherwise only the warning carrying the received frame count. -/
lemma curveSet_lookup_some (g : SheetGeometry) (anims : List (String × AnimDef))
    (key : String) (a : AnimDef) (hnd : (anims.map Prod.fst).Nodup)
    (h : anims.lookup key = some a) :
    (interpolationRanges g anims).ranges.lookup key =
      (if (generateFrames a.row a.startFrame a.endFrame g.columns).length < 2 then none
       else some (buildRange g (generateFrames a.row a.startFrame a.endFrame g.columns))) ∧
    (interpolationRanges g anims).warnings.lookup key =
      (if (generateFrames a.row a.startFrame a.endFrame g.columns).length < 2 then
        some (generateFrames a.row a.startFrame a.endFrame g.columns).length
       else none) := by
  induction anims with
  | nil => cases h
  | cons p t ih =>
    obtain ⟨k, b⟩ := p
    simp only [List.map_cons, List.nodup_cons] at hnd
    rw [interpolationRanges_cons]
    by_cases hkey : key = k
    · subst hkey
      rw [lookup_cons_self] at h
      have hb : b = a := by injection h
      subst hb
      have hnone := curveSet_lookup_none g t key hnd.1
      by_cases hlen : (generateFrames b.row b.startFrame b.endFrame g.columns).length < 2
      · rw [if_pos hlen, if_pos hlen, if_pos hlen]
        exact ⟨hnone.1, by rw [lookup_cons_self]⟩
      · rw [if_neg hlen, if_neg hlen, if_neg hlen]
        exact ⟨by rw [lookup_cons_self], hnone.2⟩
    · rw [lookup_cons_ne k key b t hkey] at h
      have iht := ih hnd.2 h
      by_cases hlen : (generateFrames b.row b.startFrame b.endFrame g.columns).length < 2
      · rw [if_pos hlen]
        exact ⟨iht.1, by rw [lookup_cons_ne k key _ _ hkey]; exact iht.2⟩
      · rw [if_neg hlen]
        exact ⟨by rw [lookup_cons_ne k key _ _ hkey]; exact iht.1, iht.2⟩

end Sprites

namespace Sprites

/-- Mapping each element of a list to two entries doubles the length. -/
lemma length_flatMap_pair {α β : Type} (f g : α → β) (l : List α) :
    (l.flatMap fun a => [f a, g a]).length = 2 * l.length := by
  induction l with
  | nil => rfl
  | cons a t ih =>
    simp only [List.flatMap_cons, List.length_append, List.length_cons, ih]
    simp only [List.length_nil]
    omega

/-- In a list where element `k` contributes exactly the entries
`f l[k], g l[k]`, those sit at positions `2k` and `2k + 1`. -/
lemma get?_flatMap_pair {α β : Type} (f g : α → β) (l : List α) :
    ∀ (k : ℕ) (hk : k < l.length),
      (l.flatMap fun a => [f a, g a]).get? (2 * k) = some (f (l.get ⟨k, hk⟩)) ∧
      (l.flatMap fun a => [f a, g a]).get? (2 * k + 1) = some (g (l.get ⟨k, hk⟩)) := by
  induction l with
  | nil => intro k hk; exact absurd hk (by simp)
  | cons a t ih =>
    intro k hk
    cases k with
    | zero => simp [List.flatMap_cons]
    | succ k =>
      have hk2 : k < t.length := by
        simpa using Nat.lt_of_succ_lt_succ hk
      obtain ⟨ih1, ih2⟩ := ih k hk2
      have e1 : 2 * (k + 1) = 2 * k + 1 + 1 := by ring
      have e2 : 2 * (k + 1) + 1 = (2 * k + 1) + 1 + 1 := by ring
      constructor
      · rw [e1]
        simpa [List.flatMap_cons] using ih1
      · rw [e2]
        simpa [List.flatMap_cons] using ih2

/-- Evaluation of `getFrameCoords` outside the grid (shared helper): the
default offset and the warning. -/
lemma getFrameCoords_oob (g : SheetGeometry) (frameIndex : ℤ)
    (h : frameIndex < 0 ∨ g.columns * g.rows ≤ frameIndex) :
    getFrameCoords g frameIndex = (⟨0, 0⟩, true) := by
  unfold getFrameCoords
  exact if_pos h

/-- The advance is linear: `progressAt r t / t` is the constant slope
`toValue / duration` throughout `[0, duration]` (stated multiplied out, so
it also covers a degenerate zero duration). -/
lemma progressAt_linear (r : RunConfig) (t : ℚ) (h0 : 0 ≤ t) (h1 : t ≤ r.duration) :
    progressAt r t * r.duration = r.toValue * t := by
  unfold progressAt
  by_cases ht : t ≤ 0
  · have h : t = 0 := le_antisymm ht h0
    subst h
    simp
  · rw [if_neg ht]
    by_cases hd : r.duration ≤ t
    · have h : t = r.duration := le_antisymm h1 hd
      subst h
      rw [if_pos le_rfl]
    · rw [if_neg hd]
      have hdpos : 0 < r.duration := lt_trans (not_le.mp ht) (not_le.mp hd)
      have hdne : r.duration ≠ 0 := ne_of_gt hdpos
      field_simp

end Sprites

namespace Sprites

/-- C1: for an in-bounds `frameIndex`, `getFrameCoords` returns
`translateX = -(frameIndex mod columns) * frameWidth - offsetX` and
`translateY = -floor(frameIndex / columns) * frameHeight - offsetY`,
with no bounds warning. -/
theorem getFrameCoords_in_bounds (g : SheetGeometry) (frameIndex : ℤ)
    (h0 : 0 ≤ frameIndex) (h1 : frameIndex < g.columns * g.rows) :
    getFrameCoords g frameIndex =
      (⟨-((frameIndex.emod g.columns : ℤ) : ℚ) * g.frameWidth - g.offsetX,
        -((frameIndex.fdiv g.columns : ℤ) : ℚ) * g.frameHeight - g.offsetY⟩,
       false) := by
  unfold getFrameCoords
  rw [if_neg]
  push_neg
  exact ⟨h0, h1⟩

/-- Witness for C1 at the spec's concrete example: `columns = 4`,
`frameWidth = frameHeight = 64`, `offsetX = offsetY = 0`, `frameIndex = 5`
(with `rows = 4` so the index is in bounds) gives `(-64, -64)`. -/
theorem getFrameCoords_in_bounds_witness :
    getFrameCoords ⟨4, 4, 64, 64, 0, 0⟩ 5 = (⟨-64, -64⟩, false) := by
  have h := getFrameCoords_in_bounds ⟨4, 4, 64, 64, 0, 0⟩ 5 (by decide) (by decide)
  rw [h]
  have hm : Int.emod 5 4 = 1 := by decide
  have hd : Int.fdiv 5 4 = 1 := by decide
  simp only [Prod.mk.injEq, FrameCoords.mk.injEq, hm, hd]
  norm_num

/-- C8: for `frameIndex` outside `[0, columns * rows)`, `getFrameCoords`
returns the default offset `(0, 0)` and signals the bounds warning; the
function is total, so no fatal error is possible. -/
theorem getFrameCoords_out_of_bounds (g : SheetGeometry) (frameIndex : ℤ)
    (h : frameIndex < 0 ∨ g.columns * g.rows ≤ frameIndex) :
    getFrameCoords g frameIndex = (⟨0, 0⟩, true) :=
  getFrameCoords_oob g frameIndex h

/-- Witness for C8: index 16 is out of bounds on a 4×4 grid. -/
theorem getFrameCoords_out_of_bounds_witness :
    getFrameCoords ⟨4, 4, 64, 64, 0, 0⟩ 16 = (⟨0, 0⟩, true) :=
  getFrameCoords_out_of_bounds ⟨4, 4, 64, 64, 0, 0⟩ 16 (Or.inr (by decide))

/-- C6 counterexample: the claim promises exactly `end - start + 1` entries
for every `row, start, end, columns`, but for `start = 0, end = -2` that
count is `-1` while the loop body never runs and the list is empty. -/
theorem generateFrames_count_counterexample :
    ¬ (((generateFrames 0 0 (-2) 2).length : ℤ) = (-2) - 0 + 1) := by
  decide

/-- C6 (amended): for every `row, start, end, columns`, `generateFrames`
returns exactly `max 0 (end - start + 1)` entries and the `k`-th entry
(0-indexed) is `row * columns + start + k`; in particular when
`start ≤ end` the values are `row*columns+start, …, row*columns+end` in
that order. -/
theorem generateFrames_entries (row s e c : ℤ) :
    ((generateFrames row s e c).length : ℤ) = max 0 (e - s + 1) ∧
    ∀ k (hk : k < (generateFrames row s e c).length),
      (generateFrames row s e c).get ⟨k, hk⟩ = row * c + s + (k : ℤ) := by
  constructor
  · have hlen : (generateFrames row s e c).length = (e + 1 - s).toNat := by
      simp [generateFrames]
    rw [hlen]
    omega
  · intro k hk
    unfold generateFrames
    rw [List.get_map, List.get_range]
    ring

/-- Witness for C6 (amended), at the spec's scenario `row = 0, start = 0,
end = 4, columns = 5`: 5 entries, and the entry at position 2 is 2. -/
theorem generateFrames_entries_witness :
    ((generateFrames 0 0 4 5).length : ℤ) = max 0 (4 - 0 + 1) ∧
    (generateFrames 0 0 4 5).get ⟨2, by decide⟩ = 0 * 5 + 0 + (2 : ℤ) :=
  ⟨(generateFrames_entries 0 0 4 5).1,
   (generateFrames_entries 0 0 4 5).2 2 (by decide)⟩

/-- C2: for an animation definition whose frame list has at least 2 entries,
the step-function builder emits, for the frame at ordinal position `k`, the
two keyframes at progress `k` and `k + 1`, both carrying that frame's offset
from `getFrameCoords`; a list of `n` frames yields exactly `2 n` keyframes
on each of the three ranges. -/
theorem buildRange_step_keyframes (g : SheetGeometry) (a : AnimDef) (frames : List ℤ)
    (_hf : frames = generateFrames a.row a.startFrame a.endFrame g.columns)
    (_h2 : 2 ≤ frames.length) :
    (buildRange g frames).input.length = 2 * frames.length ∧
    (buildRange g frames).outputX.length = 2 * frames.length ∧
    (buildRange g frames).outputY.length = 2 * frames.length ∧
    ∀ k (hk : k < frames.length),
      (buildRange g frames).input.get? (2 * k) = some (k : ℚ) ∧
      (buildRange g frames).input.get? (2 * k + 1) = some ((k : ℚ) + 1) ∧
      (buildRange g frames).outputX.get? (2 * k) =
        some ((getFrameCoords g (frames.get ⟨k, hk⟩)).1.translateX) ∧
      (buildRange g frames).outputX.get? (2 * k + 1) =
        some ((getFrameCoords g (frames.get ⟨k, hk⟩)).1.translateX) ∧
      (buildRange g frames).outputY.get? (2 * k) =
        some ((getFrameCoords g (frames.get ⟨k, hk⟩)).1.translateY) ∧
      (buildRange g frames).outputY.get? (2 * k + 1) =
        some ((getFrameCoords g (frames.get ⟨k, hk⟩)).1.translateY) := by
  refine ⟨?_, ?_, ?_, ?_⟩
  · show ((List.range frames.length).flatMap _).length = _
    rw [length_flatMap_pair, List.length_range]
  · exact length_flatMap_pair _ _ frames
  · exact length_flatMap_pair _ _ frames
  · intro k hk
    have hkr : k < (List.range frames.length).length := by simpa using hk
    have hin := get?_flatMap_pair (fun (index : ℕ) => (index : ℚ))
      (fun (index : ℕ) => (index : ℚ) + 1) (List.range frames.length) k hkr
    rw [List.get_range] at hin
    have hx := get?_flatMap_pair (fun f => ((getFrameCoords g f).1).translateX)
      (fun f => ((getFrameCoords g f).1).translateX) frames k hk
    have hy := get?_flatMap_pair (fun f => ((getFrameCoords g f).1).translateY)
      (fun f => ((getFrameCoords g f).1).translateY) frames k hk
    exact ⟨hin.1, hin.2, hx.1, hx.2, hy.1, hy.2⟩

/-- Witness for C2 at the spec's scenario (5-frame `run` animation on a
5-column sheet): the curve has `2 * 5 = 10` keyframes. -/
theorem buildRange_step_keyframes_witness :
    2 ≤ (generateFrames 0 0 4 5).length ∧
    (buildRange ⟨5, 1, 64, 64, 0, 0⟩ (generateFrames 0 0 4 5)).input.length =
      2 * (generateFrames 0 0 4 5).length :=
  ⟨by decide,
   (buildRange_step_keyframes ⟨5, 1, 64, 64, 0, 0⟩ ⟨0, 0, 4⟩ (generateFrames 0 0 4 5)
      rfl (by decide)).1⟩

/-- C3: a successful `play` sets the active animation to the requested name,
resets progress to 0 whatever the previous state (cancel-and-restart, no
phase preservation), and starts an advance with `toValue = frames.length`
and `duration = frames.length / fps * 1000` milliseconds exactly, linear
throughout `[0, duration]`. -/
theorem play_success_starts_linear_advance (anims : List (String × AnimDef))
    (columns : ℤ) (opts : PlayOptions) (st : PlaybackState) (a : AnimDef)
    (frames : List ℤ) (hlk : anims.lookup opts.type = some a)
    (hf : frames = generateFrames a.row a.startFrame a.endFrame columns)
    (h2 : 2 ≤ frames.length) :
    (play anims columns opts st).2 = [] ∧
    (play anims columns opts st).1.animationType = some opts.type ∧
    (play anims columns opts st).1.progress = 0 ∧
    ∃ r, (play anims columns opts st).1.run = some r ∧
      r.toValue = (frames.length : ℚ) ∧
      r.duration = ((frames.length : ℚ) / opts.fps) * 1000 ∧
      progressAt r 0 = 0 ∧
      ∀ t : ℚ, 0 ≤ t → t ≤ r.duration →
        progressAt r t * r.duration = r.toValue * t := by
  subst hf
  have hlen : ¬ (generateFrames a.row a.startFrame a.endFrame columns).length < 2 :=
    not_lt.mpr h2
  have hplay : play anims columns opts st =
      ({ animationType := some opts.type
       , progress := 0
       , run := some
           { toValue := ((generateFrames a.row a.startFrame a.endFrame columns).length : ℚ)
           , duration := (((generateFrames a.row a.startFrame a.endFrame columns).length : ℚ) /
               opts.fps) * 1000
           , loop := opts.loop
           , resetAfterFinish := opts.resetAfterFinish } }, []) := by
    simp only [play, hlk]
    rw [if_neg hlen]
  rw [hplay]
  exact ⟨rfl, rfl, rfl, _, rfl, rfl, rfl, by simp [progressAt],
    fun t ht0 ht1 => progressAt_linear _ t ht0 ht1⟩

/-- Witness for C3: playing the 5-frame `run` animation from the idle state
succeeds and resets progress to 0. -/
theorem play_success_starts_linear_advance_witness :
    (play [("run", ⟨0, 0, 4⟩)] 5 ⟨"run", 24, false, false⟩ ⟨none, 0, none⟩).2 = [] ∧
    (play [("run", ⟨0, 0, 4⟩)] 5 ⟨"run", 24, false, false⟩ ⟨none, 0, none⟩).1.progress = 0 :=
  ⟨(play_success_starts_linear_advance [("run", ⟨0, 0, 4⟩)] 5 ⟨"run", 24, false, false⟩
      ⟨none, 0, none⟩ ⟨0, 0, 4⟩ (generateFrames 0 0 4 5) (by decide) rfl (by decide)).1,
   (play_success_starts_linear_advance [("run", ⟨0, 0, 4⟩)] 5 ⟨"run", 24, false, false⟩
      ⟨none, 0, none⟩ ⟨0, 0, 4⟩ (generateFrames 0 0 4 5) (by decide) rfl (by decide)).2.2.1⟩

/-- C4: a non-loop run that completes naturally invokes `onFinish` exactly
once (a second completion step emits nothing), after the reset to 0 when
`resetAfterFinish` is set; a looping completion invokes nothing; and a run
preempted by `stop` or `reset` never reaches a completion that emits
`onFinish`. -/
theorem completeRun_onFinish (st : PlaybackState) (r : RunConfig)
    (h : st.run = some r) :
    (r.loop = false →
      (completeRun st).2 = [PlayEvent.finished] ∧
      (completeRun st).1.run = none ∧
      (completeRun (completeRun st).1).2 = [] ∧
      (r.resetAfterFinish = true → (completeRun st).1.progress = 0)) ∧
    (r.loop = true → (completeRun st).2 = []) ∧
    (completeRun (stop st).1).2 = [] ∧
    (completeRun (reset st).1).2 = [] := by
  by_cases hl : r.loop
  · refine ⟨fun hfalse => by simp [hfalse] at hl, fun _ => ?_, ?_, ?_⟩
    · simp [completeRun, h, hl]
    · simp [completeRun, stop]
    · simp [completeRun, reset]
  · refine ⟨fun _ => ⟨?_, ?_, ?_, ?_⟩, fun htrue => absurd htrue hl, ?_, ?_⟩
    · simp [completeRun, h, hl]
    · simp [completeRun, h, hl]
    · simp [completeRun, h, hl]
    · intro hraf
      simp [completeRun, h, hl, hraf]
    · simp [completeRun, stop]
    · simp [completeRun, reset]

/-- Witness for C4: completing a non-loop run with `resetAfterFinish` set
emits one `onFinish` with progress reset to 0, and a stopped run's
completion step emits nothing. -/
theorem completeRun_onFinish_witness :
    (completeRun ⟨some "run", 5, some ⟨5, 1000, false, true⟩⟩).2 = [PlayEvent.finished] ∧
    (completeRun ⟨some "run", 5, some ⟨5, 1000, false, true⟩⟩).1.progress = 0 ∧
    (completeRun (stop ⟨some "run", 3, some ⟨5, 1000, false, true⟩⟩).1).2 = [] := by
  have h := completeRun_onFinish ⟨some "run", 5, some ⟨5, 1000, false, true⟩⟩
    ⟨5, 1000, false, true⟩ rfl
  have hs := completeRun_onFinish ⟨some "run", 3, some ⟨5, 1000, false, true⟩⟩
    ⟨5, 1000, false, true⟩ rfl
  exact ⟨(h.1 rfl).1, (h.1 rfl).2.2.2 rfl, hs.2.2.1⟩

/-- C5: an animation with fewer than 2 frames is never registered among the
interpolation ranges, and `play` on any name without a registered range
signals the error and returns the state unchanged. -/
theorem invalid_or_unknown_play_fails (g : SheetGeometry)
    (anims : List (String × AnimDef)) (key : String) (opts : PlayOptions)
    (st : PlaybackState) (hnd : (anims.map Prod.fst).Nodup) :
    (∀ a, anims.lookup key = some a →
      (generateFrames a.row a.startFrame a.endFrame g.columns).length < 2 →
      (interpolationRanges g anims).ranges.lookup key = none) ∧
    ((interpolationRanges g anims).ranges.lookup opts.type = none →
      play anims g.columns opts st = (st, [PlayEvent.errored])) := by
  constructor
  · intro a hlk hlen
    rw [(curveSet_lookup_some g anims key a hnd hlk).1, if_pos hlen]
  · intro hnone
    cases hcase : anims.lookup opts.type with
    | none => simp [play, hcase]
    | some a =>
      have hsome := (curveSet_lookup_some g anims opts.type a hnd hcase).1
      rw [hnone] at hsome
      by_cases hlen : (generateFrames a.row a.startFrame a.endFrame g.columns).length < 2
      · simp [play, hcase, hlen]
      · rw [if_neg hlen] at hsome
        simp at hsome

/-- Witness for C5: a one-frame animation is not registered and playing it
fails with the error, leaving the idle state unchanged. -/
theorem invalid_or_unknown_play_fails_witness :
    (interpolationRanges ⟨5, 1, 64, 64, 0, 0⟩ [("idle", ⟨0, 0, 0⟩)]).ranges.lookup "idle" =
      none ∧
    play [("idle", ⟨0, 0, 0⟩)] 5 ⟨"idle", 24, false, false⟩ ⟨none, 0, none⟩ =
      (⟨none, 0, none⟩, [PlayEvent.errored]) := by
  have h := invalid_or_unknown_play_fails ⟨5, 1, 64, 64, 0, 0⟩ [("idle", ⟨0, 0, 0⟩)] "idle"
    ⟨"idle", 24, false, false⟩ ⟨none, 0, none⟩ (by decide)
  have h1 := h.1 ⟨0, 0, 0⟩ (by decide) (by decide)
  exact ⟨h1, h.2 h1⟩

/-- C7: `stop` leaves progress (and the active-animation name) unchanged and
invokes its callback once; `reset` sets progress to 0 and invokes its
callback once; with no in-flight advance, `stop` changes nothing at all. -/
theorem stop_reset_semantics (st : PlaybackState) :
    (stop st).1.progress = st.progress ∧
    (stop st).2 = [PlayEvent.callback] ∧
    (stop st).1.animationType = st.animationType ∧
    (reset st).1.progress = 0 ∧
    (reset st).2 = [PlayEvent.callback] ∧
    (reset st).1.animationType = st.animationType ∧
    (st.run = none → (stop st).1 = st) := by
  refine ⟨rfl, rfl, rfl, rfl, rfl, rfl, ?_⟩
  intro h
  obtain ⟨aty, p, rn⟩ := st
  rw [show rn = none from h]
  rfl

/-- Witness for C7 at a stopped mid-run state: `stop` keeps progress 3,
`reset` zeroes it, and `stop` on a state with no advance is the identity. -/
theorem stop_reset_semantics_witness :
    (stop ⟨some "run", 3, none⟩).1.progress = (3 : ℚ) ∧
    (reset ⟨some "run", 3, none⟩).1.progress = 0 ∧
    (stop ⟨some "run", 3, none⟩).1 = ⟨some "run", 3, none⟩ := by
  have h := stop_reset_semantics ⟨some "run", 3, none⟩
  exact ⟨h.1, h.2.2.2.1, h.2.2.2.2.2.2 rfl⟩

/-- C9: a reversed range (`endFrame < startFrame`) yields the empty frame
list, so the animation is excluded from the curve set with a warning
reporting 0 frames, and `play` on its name errors without changing state;
every function involved is total, so no exception can be raised. -/
theorem reversed_range_excluded (g : SheetGeometry) (anims : List (String × AnimDef))
    (key : String) (a : AnimDef) (opts : PlayOptions) (st : PlaybackState)
    (hnd : (anims.map Prod.fst).Nodup) (hlk : anims.lookup key = some a)
    (hrev : a.endFrame < a.startFrame) (hopt : opts.type = key) :
    generateFrames a.row a.startFrame a.endFrame g.columns = [] ∧
    (interpolationRanges g anims).warnings.lookup key = some 0 ∧
    (interpolationRanges g anims).ranges.lookup key = none ∧
    play anims g.columns opts st = (st, [PlayEvent.errored]) := by
  have hnil : generateFrames a.row a.startFrame a.endFrame g.columns = [] := by
    unfold generateFrames
    have ht : (a.endFrame + 1 - a.startFrame).toNat = 0 := by omega
    rw [ht]
    rfl
  have hlen : (generateFrames a.row a.startFrame a.endFrame g.columns).length < 2 := by
    rw [hnil]
    simp
  have hc := curveSet_lookup_some g anims key a hnd hlk
  refine ⟨hnil, ?_, ?_, ?_⟩
  · rw [hc.2, if_pos hlen, hnil]
    rfl
  · rw [hc.1, if_pos hlen]
  · subst hopt
    simp [play, hlk, hlen]

/-- Witness for C9: animation `back = {row 1, startFrame 3, endFrame 1}` on
a 5-column sheet produces no frames, a 0-frame warning, and a failing
`play`. -/
theorem reversed_range_excluded_witness :
    generateFrames 1 3 1 5 = [] ∧
    (interpolationRanges ⟨5, 1, 64, 64, 0, 0⟩
      [("back", ⟨1, 3, 1⟩)]).warnings.lookup "back" = some 0 ∧
    play [("back", ⟨1, 3, 1⟩)] 5 ⟨"back", 24, false, false⟩ ⟨none, 0, none⟩ =
      (⟨none, 0, none⟩, [PlayEvent.errored]) := by
  have h := reversed_range_excluded ⟨5, 1, 64, 64, 0, 0⟩ [("back", ⟨1, 3, 1⟩)] "back"
    ⟨1, 3, 1⟩ ⟨"back", 24, false, false⟩ ⟨none, 0, none⟩ (by decide) (by decide)
    (by decide) rfl
  exact ⟨h.1, h.2.1, h.2.2.2⟩

/-- C10: the curve builder never validates frame indices against the grid:
an animation with at least 2 frames is registered and playable even when
its indices fall outside `[0, columns*rows)`, and every out-of-range entry
contributes the default offset `(0, 0)` at both of its keyframe positions. -/
theorem out_of_range_frames_registered (g : SheetGeometry)
    (anims : List (String × AnimDef)) (key : String) (a : AnimDef)
    (frames : List ℤ) (opts : PlayOptions) (st : PlaybackState)
    (hnd : (anims.map Prod.fst).Nodup) (hlk : anims.lookup key = some a)
    (hf : frames = generateFrames a.row a.startFrame a.endFrame g.columns)
    (h2 : 2 ≤ frames.length) (hopt : opts.type = key) :
    (interpolationRanges g anims).ranges.lookup key = some (buildRange g frames) ∧
    (play anims g.columns opts st).2 = [] ∧
    ∀ k (hk : k < frames.length),
      (frames.get ⟨k, hk⟩ < 0 ∨ g.columns * g.rows ≤ frames.get ⟨k, hk⟩) →
      (buildRange g frames).outputX.get? (2 * k) = some 0 ∧
      (buildRange g frames).outputX.get? (2 * k + 1) = some 0 ∧
      (buildRange g frames).outputY.get? (2 * k) = some 0 ∧
      (buildRange g frames).outputY.get? (2 * k + 1) = some 0 := by
  subst hf
  subst hopt
  have hlen : ¬ (generateFrames a.row a.startFrame a.endFrame g.columns).length < 2 :=
    not_lt.mpr h2
  refine ⟨?_, ?_, ?_⟩
  · rw [(curveSet_lookup_some g anims opts.type a hnd hlk).1, if_neg hlen]
  · simp [play, hlk, hlen]
  · intro k hk hoor
    have hcoords : getFrameCoords g
        ((generateFrames a.row a.startFrame a.endFrame g.columns).get ⟨k, hk⟩) =
        (⟨0, 0⟩, true) :=
      getFrameCoords_oob g _ hoor
    have hx := get?_flatMap_pair (fun f => ((getFrameCoords g f).1).translateX)
      (fun f => ((getFrameCoords g f).1).translateX)
      (generateFrames a.row a.startFrame a.endFrame g.columns) k hk
    have hy := get?_flatMap_pair (fun f => ((getFrameCoords g f).1).translateY)
      (fun f => ((getFrameCoords g f).1).translateY)
      (generateFrames a.row a.startFrame a.endFrame g.columns) k hk
    rw [hcoords] at hx hy
    exact ⟨hx.1, hx.2, hy.1, hy.2⟩

/-- Witness for C10: on a 2×1 grid the 5-frame `run` animation is still
registered, and position 2 (frame index 2, out of range) carries offset 0. -/
theorem out_of_range_frames_registered_witness :
    (interpolationRanges ⟨2, 1, 10, 10, 0, 0⟩ [("run", ⟨0, 0, 4⟩)]).ranges.lookup "run" =
      some (buildRange ⟨2, 1, 10, 10, 0, 0⟩ (generateFrames 0 0 4 2)) ∧
    (buildRange ⟨2, 1, 10, 10, 0, 0⟩ (generateFrames 0 0 4 2)).outputX.get? 4 = some 0 := by
  have h := out_of_range_frames_registered ⟨2, 1, 10, 10, 0, 0⟩ [("run", ⟨0, 0, 4⟩)] "run"
    ⟨0, 0, 4⟩ (generateFrames 0 0 4 2) ⟨"run", 24, false, false⟩ ⟨none, 0, none⟩
    (by decide) (by decide) rfl (by decide) rfl
  have h3 := h.2.2 2 (by decide) (by decide)
  exact ⟨h.1, h3.1⟩

end Sprites
